import Mathlib

/-!
Verification of the NodeSet reconciliation core of the slurm-operator
repository, shallowly embedded in Lean 4.

The embedding covers:
  * the Slurm node state-set update semantics (the fake client's
    `updateFn` in `nodeset_controller_test.go`);
  * the pod / node event handlers of
    `internal/controller/nodeset/nodeset_eventhandler.go`;
  * the `Reconcile` skeleton and the once-guarded backoff GC of
    `internal/controller/nodeset/nodeset_controller.go`;
  * a transition system for the drain-then-delete scale-down protocol,
    modelled from the specification (the `Sync` body and the
    `slurmcontrol` package are not part of the sources at hand).

Definitions come first, theorems follow.
-/

namespace SlurmOperator

/-! ## Slurm node states and the state-set update

Mirrors `V0041NodeState` / `V0041UpdateNodeMsgState` from the slurm
client API as used by the repository. Requested states and reported
states share the same carrier, as in the Go code where a request is
converted by the cast `v0041.V0041NodeState(stateReq)`. -/

inductive NodeState where
  | IDLE
  | ALLOCATED
  | MIXED
  | DRAIN
  | DOWN
  | UNDRAIN
deriving DecidableEq, Repr

/-- One step of the fake client's `updateFn` loop body
(`nodeset_controller_test.go` lines 42-49): an `UNDRAIN` request deletes
`DRAIN` from the state set, any other request is inserted. -/
def applyStateReq (stateSet : Finset NodeState) (stateReq : NodeState) : Finset NodeState :=
  if stateReq = NodeState.UNDRAIN then
    stateSet.erase NodeState.DRAIN
  else
    insert stateReq stateSet

/-- The state-set part of the fake client's `updateFn`
(`nodeset_controller_test.go` lines 40-50): fold the requested states,
in order, into the node's current state set. -/
def updateNodeState (stateSet : Finset NodeState) (statesReq : List NodeState) : Finset NodeState :=
  statesReq.foldl applyStateReq stateSet

/-- A Slurm node record: name, state set, comment and reason, as in
`slurmtypes.V0041Node` restricted to the fields the controller uses. -/
structure SlurmNode where
  name : String
  state : Finset NodeState
  comment : String
  reason : String
deriving DecidableEq

/-- The update request body, as in `v0041.V0041UpdateNodeMsg` restricted
to the fields the fake client's `updateFn` reads. -/
structure UpdateNodeMsg where
  state : List NodeState
  comment : String
  reason : String
deriving DecidableEq

/-- The whole of the fake client's `updateFn` on a node: merge the state
transitions, overwrite comment and reason. -/
def updateFn (node : SlurmNode) (req : UpdateNodeMsg) : SlurmNode :=
  { node with
      state := updateNodeState node.state req.state
      comment := req.comment
      reason := req.reason }

/-- Reference trajectory of the `DRAIN` flag under a request list: the
last `DRAIN`/`UNDRAIN` request wins; with no such request the initial
flag persists. Used to characterise `updateNodeState`. -/
def drainFlagAfter (b : Bool) (reqs : List NodeState) : Bool :=
  reqs.foldl
    (fun acc r =>
      if r = NodeState.UNDRAIN then false
      else if r = NodeState.DRAIN then true
      else acc) b

/-! ## Kubernetes object model

Restricted to the fields the nodeset event handlers read. -/

/-- A namespaced name, the payload of a reconcile request
(`enqueueNodeSet` in `nodeset_eventhandler.go`). -/
structure NsName where
  nsp : String
  name : String
deriving DecidableEq, Repr

/-- An owner reference as read by `metav1.GetControllerOf`. -/
structure OwnerReference where
  apiVersion : String
  kind : String
  name : String
  uid : String
  controller : Bool
deriving DecidableEq, Repr

/-- A pod restricted to the fields the pod event handler reads. -/
structure Pod where
  nsp : String
  name : String
  resourceVersion : String
  labels : List (String × String)
  deletionTimestamp : Option Nat
  ownerReferences : List OwnerReference
deriving DecidableEq, Repr

/-- A label selector as in `metav1.LabelSelector`: the requirements it
would compile to, plus a validity flag standing for whether
`metav1.LabelSelectorAsSelector` succeeds on it. -/
structure LabelSelector where
  matchLabels : List (String × String)
  valid : Bool
deriving DecidableEq, Repr

/-- A NodeSet restricted to the fields the event handlers read. -/
structure NodeSet where
  nsp : String
  name : String
  uid : String
  selector : Option LabelSelector
deriving DecidableEq, Repr

/-- The key enqueued for a NodeSet (`enqueueNodeSet`). -/
def nodeSetKey (s : NodeSet) : NsName :=
  ⟨s.nsp, s.name⟩

/-- `metav1.GetControllerOf`: the first owner reference flagged as
controller, if any. -/
def getControllerOf (pod : Pod) : Option OwnerReference :=
  pod.ownerReferences.find? (fun r => r.controller)

/-- The compiled form of a label selector, as in `k8s.io/apimachinery`'s
`labels.Selector`: `labels.Nothing()`, `labels.Everything()`, or a
requirement list. -/
inductive Selector where
  | nothingSel
  | everythingSel
  | requirements (reqs : List (String × String))
deriving DecidableEq, Repr

/-- `metav1.LabelSelectorAsSelector`: a nil selector compiles to
`labels.Nothing()`; an invalid one errors (`none` here); one without
requirements compiles to `labels.Everything()`; otherwise to its
requirement list. -/
def labelSelectorAsSelector : Option LabelSelector → Option Selector
  | none => some Selector.nothingSel
  | some ls =>
    if ls.valid then
      if ls.matchLabels.isEmpty then some Selector.everythingSel
      else some (Selector.requirements ls.matchLabels)
    else none

/-- `labels.Selector.Empty()`: true only for `labels.Everything()`. -/
def Selector.emptySel : Selector → Bool
  | Selector.everythingSel => true
  | _ => false

/-- `labels.Selector.Matches`: `Nothing` matches no label set,
`Everything` matches all, a requirement list matches when every
`key=value` requirement is satisfied by the labels. -/
def Selector.matchesLabels : Selector → List (String × String) → Bool
  | Selector.nothingSel, _ => false
  | Selector.everythingSel, _ => true
  | Selector.requirements reqs, lbls =>
    reqs.all (fun kv => decide (lbls.lookup kv.fst = some kv.snd))

/-- Lookup of a NodeSet by namespace and name, as done by the cached
reader's `Get` inside `resolveControllerRef`. -/
def getNodeSet (nodesets : List NodeSet) (nsp name : String) : Option NodeSet :=
  nodesets.find? (fun s => s.nsp = nsp ∧ s.name = name)

/-- `podEventHandler.resolveControllerRef` (`nodeset_eventhandler.go`
lines 213-231): nil unless the reference's kind and apiVersion match the
NodeSet controller kind (`NodeSet` in `slinky.slurm.net/v1alpha1`), a
NodeSet of the referenced name exists in the namespace, and its UID
equals the reference's UID. -/
def resolveControllerRef (nodesets : List NodeSet) (nsp : String)
    (ref : OwnerReference) : Option NodeSet :=
  if ref.kind ≠ "NodeSet" ∨ ref.apiVersion ≠ "slinky.slurm.net/v1alpha1" then none
  else
    match getNodeSet nodesets nsp ref.name with
    | none => none
    | some s => if s.uid = ref.uid then some s else none

/-- `podEventHandler.getPodNodeSets` (`nodeset_eventhandler.go` lines
233-258): the NodeSets of the pod's namespace whose selector compiles,
is not empty, and matches the pod's labels. -/
def getPodNodeSets (nodesets : List NodeSet) (pod : Pod) : List NodeSet :=
  (nodesets.filter (fun s => s.nsp = pod.nsp)).filter (fun s =>
    match labelSelectorAsSelector s.selector with
    | none => false
    | some sel => !sel.emptySel && sel.matchesLabels pod.labels)

/-- `podEventHandler.deletePod` (`nodeset_eventhandler.go` lines
164-188): resolve the pod's controller reference and enqueue the
resolved NodeSet; orphans and unresolved references enqueue nothing.
The `isDeleted` flag only changes the log line and is dropped here. -/
def deletePodFn (nodesets : List NodeSet) (pod : Pod) : List NsName :=
  match getControllerOf pod with
  | none => []
  | some ref =>
    match resolveControllerRef nodesets pod.nsp ref with
    | none => []
    | some s => [nodeSetKey s]

/-- `podEventHandler.Delete` (`nodeset_eventhandler.go` lines 148-162):
the event object is a pod (the failed-cast branch cannot arise in this
typed embedding) and is handed to `deletePod` with `isDeleted = true`. -/
def podDeleteHandler (nodesets : List NodeSet) (pod : Pod) : List NsName :=
  deletePodFn nodesets pod

/-- Modelled from the spec: `utils.IsTerminating` is not among the
sources at hand; a pod counts as terminating when its deletion timestamp
is set, which is what the Create handler's comment ("a state that is
already pending deletion") describes. -/
def isTerminating (pod : Pod) : Bool :=
  pod.deletionTimestamp.isSome

/-- `podEventHandler.Create` (`nodeset_eventhandler.go` lines 47-85): a
terminating pod is forwarded to the Delete handler; otherwise a
controller reference is resolved and enqueued, and an orphan enqueues
every matching NodeSet. -/
def podCreateHandler (nodesets : List NodeSet) (pod : Pod) : List NsName :=
  if isTerminating pod then podDeleteHandler nodesets pod
  else
    match getControllerOf pod with
    | some ref =>
      match resolveControllerRef nodesets pod.nsp ref with
      | none => []
      | some s => [nodeSetKey s]
    | none => (getPodNodeSets nodesets pod).map nodeSetKey

/-- `podEventHandler.Update` (`nodeset_eventhandler.go` lines 87-146):
suppress unchanged resource versions; enqueue the old controller when
the controller reference changed away from it; a terminating current pod
goes through `deletePod`; otherwise enqueue the resolved current
controller, or, for an orphan, every matching NodeSet when labels or the
controller reference changed. -/
def podUpdateHandler (nodesets : List NodeSet) (oldPod curPod : Pod) : List NsName :=
  if curPod.resourceVersion = oldPod.resourceVersion then []
  else
    let curRef := getControllerOf curPod
    let oldRef := getControllerOf oldPod
    let refChanged := decide (curRef ≠ oldRef)
    let oldSync :=
      if refChanged then
        match oldRef with
        | some r => (resolveControllerRef nodesets oldPod.nsp r).toList.map nodeSetKey
        | none => []
      else []
    if curPod.deletionTimestamp.isSome then oldSync ++ deletePodFn nodesets curPod
    else
      match curRef with
      | some r => oldSync ++ (resolveControllerRef nodesets curPod.nsp r).toList.map nodeSetKey
      | none =>
        let matched := getPodNodeSets nodesets curPod
        if matched.isEmpty then oldSync
        else
          let labelChanged := decide (curPod.labels ≠ oldPod.labels)
          if labelChanged || refChanged then oldSync ++ matched.map nodeSetKey
          else oldSync

/-- Lookup of a pod by namespace and name, as done by the cached
reader's `Get` inside `podEventHandler.Generic`. -/
def getPod (pods : List Pod) (nsp name : String) : Option Pod :=
  pods.find? (fun p => p.nsp = nsp ∧ p.name = name)

/-- `podEventHandler.Generic` (`nodeset_eventhandler.go` lines 190-211):
fetch the pod named by the synthetic event; on failure enqueue nothing;
otherwise enqueue every matching NodeSet that passes
`isPodFromNodeSet` (a function not among the sources at hand, taken here
as a parameter). -/
def podGenericHandler (pods : List Pod) (nodesets : List NodeSet)
    (isPodFromNodeSet : NodeSet → Pod → Bool) (nsp name : String) : List NsName :=
  match getPod pods nsp name with
  | none => []
  | some pod =>
    ((getPodNodeSets nodesets pod).filter (fun s => isPodFromNodeSet s pod)).map nodeSetKey

/-! ## PodInfo and the Slurm node informer events -/

/-- The PodInfo breadcrumb `{namespace, podName}` carried in a Slurm
node's comment. -/
structure PodInfo where
  nsp : String
  podName : String
deriving DecidableEq, Repr

/-- Split a character list at every occurrence of a separator. -/
def splitOnChar (c : Char) : List Char → List (List Char)
  | [] => [[]]
  | x :: xs =>
    let r := splitOnChar c xs
    if x = c then [] :: r
    else
      match r with
      | [] => [[x]]
      | y :: ys => (x :: y) :: ys

/-- Split a comment into `key=value` pairs: space-separated tokens, each
of the form `key=value`; malformed tokens are dropped. -/
def kvPairs (s : String) : List (String × String) :=
  (splitOnChar ' ' s.toList).filterMap (fun tok =>
    match splitOnChar '=' tok with
    | [k, v] => some (String.mk k, String.mk v)
    | _ => none)

/-- Modelled from the spec: `podinfo.ParseIntoPodInfo` is not among the
sources at hand; per the spec the comment "must round-trip a PodInfo
record `{namespace, podName}` encoded as `key=value` pairs", so parsing
fails (`none`) when the comment is absent or lacks either key, and on
failure the caller's zero-valued PodInfo is left untouched. -/
def parseIntoPodInfo (comment : Option String) : Option PodInfo :=
  match comment with
  | none => none
  | some s =>
    let kvs := kvPairs s
    match kvs.lookup "namespace", kvs.lookup "podName" with
    | some n, some p => some ⟨n, p⟩
    | _, _ => none

/-- The PodInfo carried by the synthetic event built in `SetEventHandler`
(`nodeset_eventhandler.go` lines 357-365): start from the zero PodInfo,
parse the comment into it ignoring the error, so a failed parse leaves
it empty. -/
def slurmEventPodInfo (comment : Option String) : PodInfo :=
  match parseIntoPodInfo comment with
  | some pi => pi
  | none => ⟨"", ""⟩

/-- `podEvent` followed by the Generic pod handler: the synthetic event
carries a pod skeleton named by the PodInfo
(`nodeset_eventhandler.go` lines 394-403 and 190-211). -/
def slurmEventEnqueued (pods : List Pod) (nodesets : List NodeSet)
    (isPodFromNodeSet : NodeSet → Pod → Bool) (comment : Option String) : List NsName :=
  podGenericHandler pods nodesets isPodFromNodeSet
    (slurmEventPodInfo comment).nsp (slurmEventPodInfo comment).podName

/-! ## Kubernetes node event handler -/

/-- A Kubernetes node restricted to what `shouldIgnoreNodeUpdate` needs:
resource version and status conditions are singled out because the
function normalises them before the deep comparison; every other field
is abstracted into `rest`. -/
structure K8sNode where
  name : String
  resourceVersion : String
  conditions : List (String × String)
  rest : String
deriving DecidableEq, Repr

/-- `shouldIgnoreNodeUpdate` (`nodeset_eventhandler.go` lines 343-350):
if the conditions differ meaningfully (per `nodeInSameCondition`, not
among the sources at hand and taken as the parameter `sameCond`), do not
ignore; otherwise copy resource version and conditions over and ignore
exactly when the rest of the node is deeply equal. -/
def shouldIgnoreNodeUpdate
    (sameCond : List (String × String) → List (String × String) → Bool)
    (oldNode curNode : K8sNode) : Bool :=
  if !(sameCond oldNode.conditions curNode.conditions) then false
  else
    decide
      ({ oldNode with
          resourceVersion := curNode.resourceVersion
          conditions := curNode.conditions } = curNode)

/-- `nodeEventHandler.Update` (`nodeset_eventhandler.go` lines 291-325):
return early when the update should be ignored; otherwise enqueue every
NodeSet whose `(shouldRun, shouldContinue)` pair (computed by
`nodeShouldRunNodeSetPod`, not among the sources at hand and taken as
the parameter `shouldRun`) differs between the old and the new node. -/
def nodeUpdateHandler
    (shouldRun : K8sNode → NodeSet → Bool × Bool)
    (sameCond : List (String × String) → List (String × String) → Bool)
    (nodesets : List NodeSet) (oldNode curNode : K8sNode) : List NsName :=
  if shouldIgnoreNodeUpdate sameCond oldNode curNode then []
  else
    (nodesets.filter
      (fun s => decide (shouldRun oldNode s ≠ shouldRun curNode s))).map nodeSetKey

/-! ## DurationStore and the Reconcile skeleton -/

/-- Association lookup keyed by strings, standing for Go map indexing. -/
def assocFind {β : Type} : List (String × β) → String → Option β
  | [], _ => none
  | kv :: rest, k => if kv.fst = k then some kv.snd else assocFind rest k

/-- Removal of a key's entries from an association list, standing for Go
map deletion. -/
def eraseKeyAll {β : Type} : List (String × β) → String → List (String × β)
  | [], _ => []
  | kv :: rest, k => if kv.fst = k then eraseKeyAll rest k else kv :: eraseKeyAll rest k

/-- Modelled from the spec: the `durationstore` package is not among the
sources at hand; per the spec it is a "per-request minimum-requeue
registry" whose `Pop` returns the stored duration for a key (zero when
absent) and clears the entry. Durations are nanoseconds, as Go's
`time.Duration`. -/
def popDuration (store : List (String × Nat)) (key : String) : Nat × List (String × Nat) :=
  ((assocFind store key).getD 0, eraseKeyAll store key)

/-- The part of `ctrl.Result` the controller sets. -/
structure ReconcileResult where
  requeueAfter : Nat
deriving DecidableEq, Repr

/-- `NodeSetReconciler.Reconcile` (`nodeset_controller.go` lines 90-122)
restricted to its DurationStore bookkeeping: run `Sync` (abstract here;
its sub-steps may push durations into the store), pop the entry for the
request key into the result's `RequeueAfter`, then pop once more in the
deferred cleanup. -/
def reconcileStep (sync : List (String × Nat) → List (String × Nat))
    (store : List (String × Nat)) (key : String) :
    ReconcileResult × List (String × Nat) :=
  let store1 := sync store
  let p1 := popDuration store1 key
  let p2 := popDuration p1.2 key
  (⟨p1.1⟩, p2.2)

/-! ## Failed-pod backoff and the once-guarded GC goroutine -/

/-- Go's `time.Second` in nanoseconds. -/
def timeSecond : Nat := 1000000000

/-- Go's `time.Minute` in nanoseconds. -/
def timeMinute : Nat := 60 * timeSecond

/-- The configuration carried by `flowcontrol.NewBackOff`. -/
structure BackoffConfig where
  initialDuration : Nat
  maxDuration : Nat
deriving DecidableEq, Repr

/-- `failedPodsBackoff = flowcontrol.NewBackOff(1*time.Second,
15*time.Minute)` (`nodeset_controller.go` line 60). -/
def failedPodsBackoff : BackoffConfig :=
  ⟨1 * timeSecond, 15 * timeMinute⟩

/-- `BackoffGCInterval = 1 * time.Minute` (`nodeset_controller.go` line
36). -/
def backoffGCInterval : Nat := 1 * timeMinute

/-- Process-wide state of the once-guarded GC: whether `onceBackoffGC`
has fired and how many GC goroutines were ever started. -/
structure GCProcState where
  onceDone : Bool
  gcStarts : Nat
deriving DecidableEq, Repr

/-- The `onceBackoffGC.Do(...)` at the top of `Reconcile`
(`nodeset_controller.go` lines 95-97): `sync.Once` runs the body only on
the first invocation, and the body starts one GC goroutine. -/
def reconcileOnceGC (s : GCProcState) : GCProcState :=
  if s.onceDone then s else ⟨true, s.gcStarts + 1⟩

/-- A sequence of `n` Reconcile invocations within one process. -/
def runReconciles : Nat → GCProcState → GCProcState
  | 0, s => s
  | n + 1, s => runReconciles n (reconcileOnceGC s)

/-- The process starts with the once-guard untriggered and no GC
goroutine running. -/
def initialGCProcState : GCProcState := ⟨false, 0⟩

/-! ## The drain-then-delete scale-down protocol

The `Sync` body and the `slurmcontrol` package are not among the sources
at hand, so the protocol is modelled from the specification: "for each
pod to remove, first request Slurm drain of its node with reason
'nodeset scale-down'; only when the Slurm node's state includes `DRAIN`
and has no `ALLOCATED`/`MIXED` do we delete the pod and the Slurm node
record". Pods and Slurm nodes are paired by hostname equality. -/

/-- Modelled from the spec: `SlurmControl.IsDrained(cluster, host)` is
"true iff state set contains `DRAIN` and contains no `ALLOCATED` or
`MIXED`". -/
def isDrained (st : Finset NodeState) : Bool :=
  decide (NodeState.DRAIN ∈ st) &&
    !decide (NodeState.ALLOCATED ∈ st) &&
    !decide (NodeState.MIXED ∈ st)

/-- Observable events of the scale-down protocol, newest first. -/
inductive ScaleDownEvent where
  | drainRequested (host : String)
  | podDeleted (host : String) (st : Finset NodeState)
  | slurmChanged (host : String)
deriving DecidableEq

/-- The two-sided cluster state: owned pods (by hostname), the Slurm
node registry (hostname to state set) and the event history. -/
structure ClusterState where
  pods : List String
  slurm : List (String × Finset NodeState)
  history : List ScaleDownEvent
deriving DecidableEq

/-- Pointwise update of one Slurm node's state set in the registry. -/
def updateSlurm (l : List (String × Finset NodeState)) (host : String)
    (newSt : Finset NodeState) : List (String × Finset NodeState) :=
  l.map (fun kv => if kv.fst = host then (host, newSt) else kv)

/-- Modelled from the spec: one step of the reconcile/environment
interleaving for scale-down.

* `drain` — the controller requests Slurm drain of a pod's node
  (spec §4.1 step 9); the request goes through `UpdateState` with a
  `DRAIN` entry, so the node's state set gains `DRAIN`.
* `undrain` — the controller requests undrain (spec: "`UNDRAIN` is only
  issued when a pod becomes Ready"); through `UpdateState` this removes
  `DRAIN`.
* `envChange` — the Slurm side reports a new state set for a node (jobs
  starting or finishing); the `DRAIN` flag is an administrative flag
  changed only through update requests, so the environment preserves it.
* `register` — a new Slurm node registers once its pod starts (spec §4.1
  step 7); a fresh node is not draining.
* `createPod` — the controller creates a pod.
* `deletePod` — the controller deletes a pod and its Slurm node record,
  gated on the drained condition (spec §4.1 step 9). -/
inductive ScaleDownStep : ClusterState → ClusterState → Prop where
  | drain (s : ClusterState) (host : String) (st : Finset NodeState)
      (hpod : host ∈ s.pods) (hlk : assocFind s.slurm host = some st) :
      ScaleDownStep s
        ⟨s.pods,
          updateSlurm s.slurm host (updateNodeState st [NodeState.DRAIN]),
          ScaleDownEvent.drainRequested host :: s.history⟩
  | undrain (s : ClusterState) (host : String) (st : Finset NodeState)
      (hlk : assocFind s.slurm host = some st) :
      ScaleDownStep s
        ⟨s.pods,
          updateSlurm s.slurm host (updateNodeState st [NodeState.UNDRAIN]),
          ScaleDownEvent.slurmChanged host :: s.history⟩
  | envChange (s : ClusterState) (host : String) (st newSt : Finset NodeState)
      (hlk : assocFind s.slurm host = some st)
      (hdrain : NodeState.DRAIN ∈ newSt ↔ NodeState.DRAIN ∈ st) :
      ScaleDownStep s
        ⟨s.pods, updateSlurm s.slurm host newSt,
          ScaleDownEvent.slurmChanged host :: s.history⟩
  | register (s : ClusterState) (host : String) (st : Finset NodeState)
      (hnew : assocFind s.slurm host = none)
      (hnodrain : NodeState.DRAIN ∉ st) :
      ScaleDownStep s ⟨s.pods, (host, st) :: s.slurm, s.history⟩
  | createPod (s : ClusterState) (host : String) :
      ScaleDownStep s ⟨host :: s.pods, s.slurm, s.history⟩
  | deletePod (s : ClusterState) (host : String) (st : Finset NodeState)
      (hpod : host ∈ s.pods)
      (hlk : assocFind s.slurm host = some st)
      (hdrained : isDrained st = true) :
      ScaleDownStep s
        ⟨s.pods.erase host, eraseKeyAll s.slurm host,
          ScaleDownEvent.podDeleted host st :: s.history⟩

/-- Every Slurm node carrying the `DRAIN` flag has a drain request on
record. -/
def drainTracked (s : ClusterState) : Prop :=
  ∀ h st, (h, st) ∈ s.slurm → NodeState.DRAIN ∈ st →
    ScaleDownEvent.drainRequested h ∈ s.history

/-- Well-formed histories: every pod deletion was taken in the drained
condition and after (the history is newest-first, so: with a later tail
entry of) a drain request for its host. -/
def eventsOK : List ScaleDownEvent → Prop
  | [] => True
  | ScaleDownEvent.podDeleted h st :: rest =>
    isDrained st = true ∧ ScaleDownEvent.drainRequested h ∈ rest ∧ eventsOK rest
  | _ :: rest => eventsOK rest

/-! ## Sample objects used to evaluate the theorems on concrete inputs -/

/-- A controller reference to a NodeSet named `web` with UID `uid-1`. -/
def sampleRef : OwnerReference :=
  ⟨"slinky.slurm.net/v1alpha1", "NodeSet", "web", "uid-1", true⟩

/-- A NodeSet named `web` that was deleted and recreated, so it carries a
different UID than `sampleRef` points at. -/
def sampleNodeSetRecreated : NodeSet :=
  ⟨"default", "web", "uid-2", none⟩

/-- A pod owned (per controller reference) by the original `web`
NodeSet. -/
def samplePodOwned : Pod :=
  ⟨"default", "web-0", "5", [("foo", "bar")], none, [sampleRef]⟩

/-- The same pod with a deletion timestamp set. -/
def samplePodTerminating : Pod :=
  { samplePodOwned with deletionTimestamp := some 1 }

/-- A valid, non-empty label selector matching `foo=bar`. -/
def sampleSelectorGood : LabelSelector :=
  ⟨[("foo", "bar")], true⟩

/-- A NodeSet with a valid, non-empty selector. -/
def sampleNodeSetGood : NodeSet :=
  ⟨"default", "good", "uid-3", some sampleSelectorGood⟩

/-- A NodeSet whose selector is valid but empty: it would match every
pod, and the orphan path must skip it. -/
def sampleNodeSetEmptySel : NodeSet :=
  ⟨"default", "empty", "uid-4", some ⟨[], true⟩⟩

/-- A concrete `(shouldRun, shouldContinue)` matcher used to evaluate the
node update handler: a node may run a pod once its abstracted remaining
fields read `sched`. -/
def sampleShouldRun : K8sNode → NodeSet → Bool × Bool :=
  fun n _ => (decide (n.rest = "sched"), true)

/-- A concrete condition comparison: conditions are meaningfully equal
when they are literally equal. -/
def sampleSameCond : List (String × String) → List (String × String) → Bool :=
  fun a b => decide (a = b)

/-- A Kubernetes node before an update. -/
def sampleOldNode : K8sNode :=
  ⟨"node-1", "1", [("Ready", "True")], "x"⟩

/-- The same Kubernetes node after an update that flips its
`sampleShouldRun` verdict. -/
def sampleCurNode : K8sNode :=
  ⟨"node-1", "2", [("Ready", "True")], "sched"⟩

/-- Scale-down scenario, step 0: one pod on `node-1`, whose Slurm node
is busy (`ALLOCATED`) and not draining. -/
def sdState0 : ClusterState :=
  ⟨["node-1"], [("node-1", {NodeState.ALLOCATED})], []⟩

/-- Step 1: the controller has requested drain of `node-1`. -/
def sdState1 : ClusterState :=
  ⟨sdState0.pods,
    updateSlurm sdState0.slurm "node-1"
      (updateNodeState {NodeState.ALLOCATED} [NodeState.DRAIN]),
    ScaleDownEvent.drainRequested "node-1" :: sdState0.history⟩

/-- Step 2: the running jobs finished, Slurm reports `{DRAIN}`. -/
def sdState2 : ClusterState :=
  ⟨sdState1.pods, updateSlurm sdState1.slurm "node-1" {NodeState.DRAIN},
    ScaleDownEvent.slurmChanged "node-1" :: sdState1.history⟩

/-- Step 3: the drained pod and its Slurm record are deleted. -/
def sdState3 : ClusterState :=
  ⟨sdState2.pods.erase "node-1", eraseKeyAll sdState2.slurm "node-1",
    ScaleDownEvent.podDeleted "node-1" {NodeState.DRAIN} :: sdState2.history⟩

end SlurmOperator

namespace SlurmOperator

/-! ## Theorems -/

lemma applyStateReq_mem_of_ne_drain (S : Finset NodeState) (r x : NodeState)
    (hx : x ≠ NodeState.DRAIN) :
    x ∈ applyStateReq S r ↔ x ∈ S ∨ (r = x ∧ r ≠ NodeState.UNDRAIN) := by
  unfold applyStateReq
  by_cases hr : r = NodeState.UNDRAIN
  · subst hr
    rw [if_pos rfl, Finset.mem_erase]
    constructor
    · rintro ⟨-, h⟩
      exact Or.inl h
    · rintro (h | ⟨h1, h2⟩)
      · exact ⟨hx, h⟩
      · exact absurd rfl h2
  · rw [if_neg hr, Finset.mem_insert]
    constructor
    · rintro (rfl | h)
      · exact Or.inr ⟨rfl, hr⟩
      · exact Or.inl h
    · rintro (h | ⟨rfl, -⟩)
      · exact Or.inr h
      · exact Or.inl rfl

lemma updateNodeState_mem_of_ne_drain (S : Finset NodeState) (L : List NodeState)
    (x : NodeState) (hx : x ≠ NodeState.DRAIN) :
    x ∈ updateNodeState S L ↔ x ∈ S ∨ (x ∈ L ∧ x ≠ NodeState.UNDRAIN) := by
  induction L generalizing S with
  | nil => simp [updateNodeState]
  | cons r rest ih =>
    show x ∈ updateNodeState (applyStateReq S r) rest ↔ _
    rw [ih, applyStateReq_mem_of_ne_drain S r x hx]
    constructor
    · rintro ((h | ⟨rfl, hru⟩) | ⟨hmem, hxu⟩)
      · exact Or.inl h
      · exact Or.inr ⟨List.mem_cons_self _ _, hru⟩
      · exact Or.inr ⟨List.mem_cons_of_mem r hmem, hxu⟩
    · rintro (h | ⟨hmem, hxu⟩)
      · exact Or.inl (Or.inl h)
      · rcases List.mem_cons.mp hmem with rfl | hmem2
        · exact Or.inl (Or.inr ⟨rfl, hxu⟩)
        · exact Or.inr ⟨hmem2, hxu⟩

lemma applyStateReq_drain_decide (S : Finset NodeState) (r : NodeState) :
    decide (NodeState.DRAIN ∈ applyStateReq S r) =
      (if r = NodeState.UNDRAIN then false
       else if r = NodeState.DRAIN then true
       else decide (NodeState.DRAIN ∈ S)) := by
  unfold applyStateReq
  by_cases hr : r = NodeState.UNDRAIN
  · simp [hr]
  · by_cases hd : r = NodeState.DRAIN
    · simp [hr, hd]
    · simp [hr, hd, Finset.mem_insert, Ne.symm hd]

lemma updateNodeState_drain_mem (S : Finset NodeState) (L : List NodeState) :
    (NodeState.DRAIN ∈ updateNodeState S L) ↔
      drainFlagAfter (decide (NodeState.DRAIN ∈ S)) L = true := by
  induction L generalizing S with
  | nil => simp [updateNodeState, drainFlagAfter]
  | cons r rest ih =>
    show NodeState.DRAIN ∈ updateNodeState (applyStateReq S r) rest ↔ _
    rw [ih]
    simp only [drainFlagAfter, List.foldl_cons]
    rw [applyStateReq_drain_decide S r]

/-- C3: for every Slurm node state set `S` and every requested state list
`L`, `UpdateState` produces the state set obtained by folding over `L` in
order: a request of `UNDRAIN` removes `DRAIN` from the set, and any other
requested state is inserted; no other states are added or removed. The
first conjunct settles every state other than `DRAIN` (it ends up in the
result exactly when it was already present or was requested by a
non-`UNDRAIN` entry of `L`, and nothing else is added or removed); the
second conjunct settles `DRAIN` (its final presence is the in-order fold
of the `DRAIN`/`UNDRAIN` requests over its initial presence). -/
theorem updateState_fold_characterisation (S : Finset NodeState) (L : List NodeState) :
    (∀ x, x ≠ NodeState.DRAIN →
      (x ∈ updateNodeState S L ↔ x ∈ S ∨ (x ∈ L ∧ x ≠ NodeState.UNDRAIN))) ∧
    (NodeState.DRAIN ∈ updateNodeState S L ↔
      drainFlagAfter (decide (NodeState.DRAIN ∈ S)) L = true) := by
  refine ⟨fun x hx => ?_, ?_⟩
  · exact updateNodeState_mem_of_ne_drain S L x hx
  · exact updateNodeState_drain_mem S L

/-- Witness for C3: evaluate the characterisation on the concrete state
set `{ALLOCATED, DRAIN}` and request list `[UNDRAIN, DOWN]`. -/
theorem updateState_fold_characterisation_witness :
    (NodeState.DOWN ≠ NodeState.DRAIN) ∧
    (NodeState.DOWN ∈
        updateNodeState {NodeState.ALLOCATED, NodeState.DRAIN}
          [NodeState.UNDRAIN, NodeState.DOWN] ↔
      NodeState.DOWN ∈ ({NodeState.ALLOCATED, NodeState.DRAIN} : Finset NodeState) ∨
        (NodeState.DOWN ∈ [NodeState.UNDRAIN, NodeState.DOWN] ∧
          NodeState.DOWN ≠ NodeState.UNDRAIN)) ∧
    (NodeState.DRAIN ∈
        updateNodeState {NodeState.ALLOCATED, NodeState.DRAIN}
          [NodeState.UNDRAIN, NodeState.DOWN] ↔
      drainFlagAfter
        (decide (NodeState.DRAIN ∈
          ({NodeState.ALLOCATED, NodeState.DRAIN} : Finset NodeState)))
        [NodeState.UNDRAIN, NodeState.DOWN] = true) :=
  ⟨by decide,
    (updateState_fold_characterisation {NodeState.ALLOCATED, NodeState.DRAIN}
        [NodeState.UNDRAIN, NodeState.DOWN]).1 NodeState.DOWN (by decide),
    (updateState_fold_characterisation {NodeState.ALLOCATED, NodeState.DRAIN}
        [NodeState.UNDRAIN, NodeState.DOWN]).2⟩

/-- C4: for every pod update event in which the old pod and the new pod
carry the same resource version, the pod event handler returns without
enqueueing any NodeSet. -/
theorem podUpdate_suppressed_on_same_rv (nodesets : List NodeSet) (oldPod curPod : Pod)
    (h : curPod.resourceVersion = oldPod.resourceVersion) :
    podUpdateHandler nodesets oldPod curPod = [] := by
  unfold podUpdateHandler
  rw [if_pos h]

/-- Witness for C4: a resync event repeating the very same pod enqueues
nothing. -/
theorem podUpdate_suppressed_on_same_rv_witness :
    samplePodOwned.resourceVersion = samplePodOwned.resourceVersion ∧
    podUpdateHandler [sampleNodeSetGood] samplePodOwned samplePodOwned = [] :=
  ⟨rfl, podUpdate_suppressed_on_same_rv [sampleNodeSetGood] samplePodOwned samplePodOwned rfl⟩

/-- C9: for every pod create event in which the pod already has a
deletion timestamp set, the Create handler behaves exactly as the Delete
handler applied to the same pod: the two invocations enqueue the same
NodeSet keys, so the event is never treated as a creation
observation. -/
theorem podCreate_terminating_eq_delete (nodesets : List NodeSet) (pod : Pod)
    (h : pod.deletionTimestamp.isSome = true) :
    podCreateHandler nodesets pod = podDeleteHandler nodesets pod := by
  unfold podCreateHandler
  rw [if_pos (show isTerminating pod = true from h)]

/-- Witness for C9: a pod arriving with a deletion timestamp set is
routed through the Delete handler. -/
theorem podCreate_terminating_eq_delete_witness :
    samplePodTerminating.deletionTimestamp.isSome = true ∧
    podCreateHandler [sampleNodeSetRecreated] samplePodTerminating =
      podDeleteHandler [sampleNodeSetRecreated] samplePodTerminating :=
  ⟨rfl, podCreate_terminating_eq_delete [sampleNodeSetRecreated] samplePodTerminating rfl⟩

/-- C8: `resolveControllerRef` returns a NodeSet exactly when the
reference's kind and apiVersion match the NodeSet controller kind, a
NodeSet of the referenced name exists in the namespace, and that
NodeSet's UID equals the reference's UID; in every other case it returns
nil, so a pod event whose owner reference points at a same-named but
different (recreated) NodeSet enqueues nothing. -/
theorem resolveControllerRef_uid_gate (nodesets : List NodeSet) (nsp : String)
    (ref : OwnerReference) :
    (∀ s, resolveControllerRef nodesets nsp ref = some s ↔
      (ref.kind = "NodeSet" ∧ ref.apiVersion = "slinky.slurm.net/v1alpha1" ∧
        getNodeSet nodesets nsp ref.name = some s ∧ s.uid = ref.uid)) ∧
    (resolveControllerRef nodesets nsp ref = none →
      ∀ pod, pod.nsp = nsp → getControllerOf pod = some ref →
        deletePodFn nodesets pod = []) := by
  constructor
  · intro s
    unfold resolveControllerRef
    by_cases hk : ref.kind ≠ "NodeSet" ∨ ref.apiVersion ≠ "slinky.slurm.net/v1alpha1"
    · rw [if_pos hk]
      constructor
      · intro h
        exact absurd h (by simp)
      · rintro ⟨h1, h2, -, -⟩
        rcases hk with hk | hk
        · exact absurd h1 hk
        · exact absurd h2 hk
    · rw [if_neg hk]
      push_neg at hk
      obtain ⟨hk1, hk2⟩ := hk
      cases hget : getNodeSet nodesets nsp ref.name with
      | none =>
        simp only [hget]
        constructor
        · intro h
          exact absurd h (by simp)
        · rintro ⟨-, -, h3, -⟩
          exact absurd h3 (by simp)
      | some t =>
        simp only [hget]
        by_cases hu : t.uid = ref.uid
        · rw [if_pos hu]
          constructor
          · intro h
            injection h with h'
            subst h'
            exact ⟨hk1, hk2, rfl, hu⟩
          · rintro ⟨-, -, h3, -⟩
            exact h3
        · rw [if_neg hu]
          constructor
          · intro h
            exact absurd h (by simp)
          · rintro ⟨-, -, h3, h4⟩
            injection h3 with h'
            subst h'
            exact absurd h4 hu
  · intro hnone pod hp hc
    simp only [deletePodFn, hc, hp, hnone]

/-- Witness for C8: the reference of `samplePodOwned` names the
recreated `web` NodeSet but carries the old UID, so the characterisation
applies and the pod's delete event enqueues nothing. -/
theorem resolveControllerRef_uid_gate_witness :
    (resolveControllerRef [sampleNodeSetRecreated] "default" sampleRef =
        some sampleNodeSetRecreated ↔
      (sampleRef.kind = "NodeSet" ∧
        sampleRef.apiVersion = "slinky.slurm.net/v1alpha1" ∧
        getNodeSet [sampleNodeSetRecreated] "default" sampleRef.name =
          some sampleNodeSetRecreated ∧
        sampleNodeSetRecreated.uid = sampleRef.uid)) ∧
    deletePodFn [sampleNodeSetRecreated] samplePodOwned = [] :=
  ⟨(resolveControllerRef_uid_gate [sampleNodeSetRecreated] "default" sampleRef).1
      sampleNodeSetRecreated,
    (resolveControllerRef_uid_gate [sampleNodeSetRecreated] "default" sampleRef).2
      (by decide) samplePodOwned rfl (by decide)⟩

/-- C10: the set of NodeSets matched for orphan-pod events contains none
whose selector is invalid or empty; consequently a NodeSet with a valid
but empty selector is never enqueued through the orphan-adoption path,
even though its selector would match every pod. -/
theorem getPodNodeSets_skips_invalid_or_empty (nodesets : List NodeSet) (pod : Pod) :
    (∀ s, s ∈ getPodNodeSets nodesets pod →
      ∃ sel, labelSelectorAsSelector s.selector = some sel ∧ sel.emptySel = false) ∧
    (∀ s, s.selector = some ⟨[], true⟩ → s ∉ getPodNodeSets nodesets pod) := by
  constructor
  · intro s hs
    unfold getPodNodeSets at hs
    rw [List.mem_filter] at hs
    obtain ⟨-, hpred⟩ := hs
    cases hsel : labelSelectorAsSelector s.selector with
    | none =>
      rw [hsel] at hpred
      exact absurd hpred (by simp)
    | some sel =>
      rw [hsel] at hpred
      have h1 : (!(sel.emptySel) && sel.matchesLabels pod.labels) = true := hpred
      have h2 : sel.emptySel = false ∧ sel.matchesLabels pod.labels = true := by
        simpa using h1
      exact ⟨sel, rfl, h2.1⟩
  · intro s hsel hmem
    unfold getPodNodeSets at hmem
    rw [List.mem_filter] at hmem
    obtain ⟨-, hpred⟩ := hmem
    rw [hsel] at hpred
    simp [labelSelectorAsSelector, Selector.emptySel] at hpred

/-- Witness for C10: with one well-selecting NodeSet and one
empty-selector NodeSet in the namespace, the matched NodeSet has a
compiled non-empty selector and the empty-selector NodeSet is absent. -/
theorem getPodNodeSets_skips_invalid_or_empty_witness :
    (sampleNodeSetGood ∈
      getPodNodeSets [sampleNodeSetGood, sampleNodeSetEmptySel] samplePodOwned) ∧
    (∃ sel, labelSelectorAsSelector sampleNodeSetGood.selector = some sel ∧
      sel.emptySel = false) ∧
    (sampleNodeSetEmptySel.selector = some ⟨[], true⟩) ∧
    (sampleNodeSetEmptySel ∉
      getPodNodeSets [sampleNodeSetGood, sampleNodeSetEmptySel] samplePodOwned) :=
  ⟨by decide,
    (getPodNodeSets_skips_invalid_or_empty
        [sampleNodeSetGood, sampleNodeSetEmptySel] samplePodOwned).1
      sampleNodeSetGood (by decide),
    rfl,
    (getPodNodeSets_skips_invalid_or_empty
        [sampleNodeSetGood, sampleNodeSetEmptySel] samplePodOwned).2
      sampleNodeSetEmptySel rfl⟩

/-- C2: the node event handler enqueues a reconcile request for a
NodeSet only when the `(shouldRun, shouldContinue)` pair computed for the
old node differs from the pair for the new node, or when the node
conditions changed meaningfully; any enqueued key belongs to a watched
NodeSet witnessing such a transition. -/
theorem nodeUpdate_enqueue_requires_transition
    (shouldRun : K8sNode → NodeSet → Bool × Bool)
    (sameCond : List (String × String) → List (String × String) → Bool)
    (nodesets : List NodeSet) (oldNode curNode : K8sNode) (k : NsName)
    (hk : k ∈ nodeUpdateHandler shouldRun sameCond nodesets oldNode curNode) :
    ∃ s, s ∈ nodesets ∧ nodeSetKey s = k ∧
      (shouldRun oldNode s ≠ shouldRun curNode s ∨
        sameCond oldNode.conditions curNode.conditions = false) := by
  unfold nodeUpdateHandler at hk
  by_cases hig : shouldIgnoreNodeUpdate sameCond oldNode curNode = true
  · rw [if_pos hig] at hk
    exact absurd hk (List.not_mem_nil k)
  · rw [if_neg hig] at hk
    rw [List.mem_map] at hk
    obtain ⟨s, hs, hkey⟩ := hk
    rw [List.mem_filter] at hs
    obtain ⟨hmem, hpred⟩ := hs
    exact ⟨s, hmem, hkey, Or.inl (of_decide_eq_true hpred)⟩

/-- Witness for C2: a node update that flips the `shouldRun` verdict for
the watched NodeSet enqueues its key, and the theorem exhibits the
transition. -/
theorem nodeUpdate_enqueue_requires_transition_witness :
    (nodeSetKey sampleNodeSetGood ∈
      nodeUpdateHandler sampleShouldRun sampleSameCond [sampleNodeSetGood]
        sampleOldNode sampleCurNode) ∧
    (∃ s, s ∈ [sampleNodeSetGood] ∧ nodeSetKey s = nodeSetKey sampleNodeSetGood ∧
      (sampleShouldRun sampleOldNode s ≠ sampleShouldRun sampleCurNode s ∨
        sampleSameCond sampleOldNode.conditions sampleCurNode.conditions = false)) :=
  ⟨by decide,
    nodeUpdate_enqueue_requires_transition sampleShouldRun sampleSameCond
      [sampleNodeSetGood] sampleOldNode sampleCurNode
      (nodeSetKey sampleNodeSetGood) (by decide)⟩

/-- C7: a Slurm node informer event whose comment fails to parse into a
PodInfo produces a synthetic event carrying the empty PodInfo, and the
Generic pod handler enqueues no NodeSet for it, provided the pod store
is well-formed (no stored pod has an empty name): parse failure is a
skip, never an enqueue-all. -/
theorem slurmEvent_parse_failure_skips
    (pods : List Pod) (nodesets : List NodeSet)
    (isFrom : NodeSet → Pod → Bool) (comment : Option String)
    (hparse : parseIntoPodInfo comment = none)
    (hwf : ∀ p, p ∈ pods → p.name ≠ "") :
    slurmEventPodInfo comment = PodInfo.mk "" "" ∧
    slurmEventEnqueued pods nodesets isFrom comment = [] := by
  have hpi : slurmEventPodInfo comment = PodInfo.mk "" "" := by
    unfold slurmEventPodInfo
    rw [hparse]
  refine ⟨hpi, ?_⟩
  unfold slurmEventEnqueued
  rw [hpi]
  show podGenericHandler pods nodesets isFrom "" "" = []
  unfold podGenericHandler
  have hget : getPod pods "" "" = none := by
    unfold getPod
    rw [List.find?_eq_none]
    intro p hp h
    have h2 := of_decide_eq_true h
    exact hwf p hp h2.2
  rw [hget]

lemma assocFind_eraseKeyAll (l : List (String × Nat)) (key : String) :
    assocFind (eraseKeyAll l key) key = none := by
  induction l with
  | nil => rfl
  | cons kv rest ih =>
    unfold eraseKeyAll
    by_cases h : kv.fst = key
    · rw [if_pos h]
      exact ih
    · rw [if_neg h]
      unfold assocFind
      rw [if_neg h]
      exact ih

/-- C5: when `Sync` completes, `Reconcile` returns a result whose
`RequeueAfter` equals the value popped from the DurationStore for the
request's key, and the store entry for the key is cleared: a subsequent
`Pop` for the same key yields the zero duration. -/
theorem reconcile_requeue_from_duration_store
    (sync : List (String × Nat) → List (String × Nat))
    (store : List (String × Nat)) (key : String) :
    (reconcileStep sync store key).1.requeueAfter = (popDuration (sync store) key).1 ∧
    (popDuration (reconcileStep sync store key).2 key).1 = 0 := by
  refine ⟨rfl, ?_⟩
  show (assocFind (eraseKeyAll (eraseKeyAll (sync store) key) key) key).getD 0 = 0
  rw [assocFind_eraseKeyAll]
  rfl

lemma runReconciles_done (n : Nat) (s : GCProcState) (h : s.onceDone = true) :
    runReconciles n s = s := by
  induction n with
  | zero => rfl
  | succ m ih =>
    show runReconciles m (reconcileOnceGC s) = s
    rw [show reconcileOnceGC s = s by unfold reconcileOnceGC; rw [if_pos h]]
    exact ih

/-- C6: the failed-pod backoff registry is configured with an initial
backoff of exactly 1 second and a cap of exactly 15 minutes (in
nanoseconds, Go's duration unit), the GC interval is 1 minute, and
across every sequence of Reconcile invocations in one process the
once-guarded GC goroutine is started at most once (and exactly once as
soon as one Reconcile ran). -/
theorem backoff_config_and_once_guarded_gc :
    failedPodsBackoff.initialDuration = 1000000000 ∧
    failedPodsBackoff.maxDuration = 900000000000 ∧
    backoffGCInterval = 60000000000 ∧
    (∀ n, (runReconciles n initialGCProcState).gcStarts ≤ 1) ∧
    (∀ n, 1 ≤ n → (runReconciles n initialGCProcState).gcStarts = 1) := by
  have hstep : ∀ m, runReconciles (m + 1) initialGCProcState = ⟨true, 1⟩ := by
    intro m
    show runReconciles m (reconcileOnceGC initialGCProcState) = _
    exact runReconciles_done m _ rfl
  refine ⟨rfl, rfl, rfl, ?_, ?_⟩
  · intro n
    cases n with
    | zero => decide
    | succ m => rw [hstep m]
  · intro n hn
    cases n with
    | zero => exact absurd hn (by decide)
    | succ m => rw [hstep m]

/-- Witness for C6: after three Reconcile invocations exactly one GC
goroutine has been started. -/
theorem backoff_config_and_once_guarded_gc_witness :
    (1 ≤ 3) ∧ (runReconciles 3 initialGCProcState).gcStarts = 1 :=
  ⟨by decide, backoff_config_and_once_guarded_gc.2.2.2.2 3 (by decide)⟩

/-- Witness for C7: a garbage comment fails to parse over a store with
one properly named pod, so the event enqueues nothing. -/
theorem slurmEvent_parse_failure_skips_witness :
    parseIntoPodInfo (some "garbage") = none ∧
    (∀ p, p ∈ [samplePodOwned] → p.name ≠ "") ∧
    slurmEventPodInfo (some "garbage") = PodInfo.mk "" "" ∧
    slurmEventEnqueued [samplePodOwned] [sampleNodeSetGood]
      (fun _ _ => true) (some "garbage") = [] := by
  refine ⟨by decide, by decide, ?_⟩
  exact slurmEvent_parse_failure_skips [samplePodOwned] [sampleNodeSetGood]
    (fun _ _ => true) (some "garbage") (by decide) (by decide)

lemma isDrained_iff (st : Finset NodeState) :
    isDrained st = true ↔
      (NodeState.DRAIN ∈ st ∧ NodeState.ALLOCATED ∉ st ∧ NodeState.MIXED ∉ st) := by
  unfold isDrained
  simp only [Bool.and_eq_true, Bool.not_eq_true', decide_eq_true_eq,
    decide_eq_false_iff_not]
  tauto

lemma assocFind_mem {β : Type} (l : List (String × β)) (k : String) (v : β)
    (h : assocFind l k = some v) : (k, v) ∈ l := by
  induction l with
  | nil => cases h
  | cons kv rest ih =>
    unfold assocFind at h
    by_cases hf : kv.fst = k
    · rw [if_pos hf] at h
      injection h with h'
      have hkv : kv = (k, v) := by rw [← hf, ← h']
      exact List.mem_cons.mpr (Or.inl hkv.symm)
    · rw [if_neg hf] at h
      exact List.mem_cons_of_mem kv (ih h)

lemma mem_updateSlurm {l : List (String × Finset NodeState)} {host : String}
    {newSt : Finset NodeState} {h : String} {stx : Finset NodeState}
    (hmem : (h, stx) ∈ updateSlurm l host newSt) :
    (h = host ∧ stx = newSt) ∨ ((h, stx) ∈ l ∧ h ≠ host) := by
  unfold updateSlurm at hmem
  rw [List.mem_map] at hmem
  obtain ⟨kv, hkv, heq⟩ := hmem
  by_cases hf : kv.fst = host
  · rw [if_pos hf] at heq
    injection heq with e1 e2
    exact Or.inl ⟨e1.symm, e2.symm⟩
  · rw [if_neg hf] at heq
    subst heq
    exact Or.inr ⟨hkv, hf⟩

lemma mem_eraseKeyAll {β : Type} {l : List (String × β)} {k : String}
    {x : String × β} (h : x ∈ eraseKeyAll l k) : x ∈ l := by
  induction l with
  | nil => cases h
  | cons kv rest ih =>
    unfold eraseKeyAll at h
    by_cases hf : kv.fst = k
    · rw [if_pos hf] at h
      exact List.mem_cons_of_mem kv (ih h)
    · rw [if_neg hf] at h
      rcases List.mem_cons.mp h with rfl | h2
      · exact List.mem_cons_self _ _
      · exact List.mem_cons_of_mem kv (ih h2)

lemma eventsOK_tail (e : ScaleDownEvent) (rest : List ScaleDownEvent)
    (h : eventsOK (e :: rest)) : eventsOK rest := by
  cases e with
  | drainRequested host => exact h
  | podDeleted host st => exact h.2.2
  | slurmChanged host => exact h

lemma eventsOK_split :
    ∀ (post L : List ScaleDownEvent), eventsOK L →
      ∀ pre host st, L = post ++ ScaleDownEvent.podDeleted host st :: pre →
        isDrained st = true ∧ ScaleDownEvent.drainRequested host ∈ pre := by
  intro post
  induction post with
  | nil =>
    intro L hok pre host st hL
    subst hL
    exact ⟨hok.1, hok.2.1⟩
  | cons e rest ih =>
    intro L hok pre host st hL
    subst hL
    exact ih _ (eventsOK_tail e _ hok) pre host st rfl

lemma scaleDownStep_preserves (a b : ClusterState)
    (hstep : ScaleDownStep a b)
    (hinv : drainTracked a ∧ eventsOK a.history) :
    drainTracked b ∧ eventsOK b.history := by
  obtain ⟨htr, hok⟩ := hinv
  cases hstep with
  | drain host st hpod hlk =>
    constructor
    · intro h stx hmem hdr
      rcases mem_updateSlurm hmem with ⟨rfl, rfl⟩ | ⟨hold, hne⟩
      · exact List.mem_cons_self _ _
      · exact List.mem_cons_of_mem _ (htr h stx hold hdr)
    · exact hok
  | undrain host st hlk =>
    constructor
    · intro h stx hmem hdr
      rcases mem_updateSlurm hmem with ⟨rfl, rfl⟩ | ⟨hold, hne⟩
      · exfalso
        have hdr' : NodeState.DRAIN ∈ st.erase NodeState.DRAIN := hdr
        exact absurd hdr' (Finset.not_mem_erase _ _)
      · exact List.mem_cons_of_mem _ (htr h stx hold hdr)
    · exact hok
  | envChange host st newSt hlk hdrain =>
    constructor
    · intro h stx hmem hdr
      rcases mem_updateSlurm hmem with ⟨rfl, rfl⟩ | ⟨hold, hne⟩
      · exact List.mem_cons_of_mem _
          (htr h st (assocFind_mem _ _ _ hlk) (hdrain.mp hdr))
      · exact List.mem_cons_of_mem _ (htr h stx hold hdr)
    · exact hok
  | register host st hnew hnodrain =>
    constructor
    · intro h stx hmem hdr
      rcases List.mem_cons.mp hmem with heq | hold
      · injection heq with e1 e2
        subst e2
        exact absurd hdr hnodrain
      · exact htr h stx hold hdr
    · exact hok
  | createPod host =>
    exact ⟨htr, hok⟩
  | deletePod host st hpod hlk hdrained =>
    constructor
    · intro h stx hmem hdr
      exact List.mem_cons_of_mem _ (htr h stx (mem_eraseKeyAll hmem) hdr)
    · refine ⟨hdrained, ?_, hok⟩
      have hDR : NodeState.DRAIN ∈ st := ((isDrained_iff st).mp hdrained).1
      exact htr host st (assocFind_mem _ _ _ hlk) hDR

lemma scaleDown_reachable_invariant (s0 s : ClusterState)
    (hhist : s0.history = [])
    (hclean : ∀ h st, (h, st) ∈ s0.slurm → NodeState.DRAIN ∉ st)
    (hreach : Relation.ReflTransGen ScaleDownStep s0 s) :
    drainTracked s ∧ eventsOK s.history := by
  induction hreach with
  | refl =>
    constructor
    · intro h st hmem hdr
      exact absurd hdr (hclean h st hmem)
    · rw [hhist]
      trivial
  | tail hab hbc ih => exact scaleDownStep_preserves _ _ hbc ih

/-- C1: in every state reachable by the scale-down step relation from an
initial state (empty history, no Slurm node draining), every pod
deletion in the history happened while the pod's paired Slurm node
reported a state set containing `DRAIN` and neither `ALLOCATED` nor
`MIXED`, and was preceded (further down the newest-first history) by a
drain request for the same hostname: deletion is gated on the drained
condition and preceded by a drain request. -/
theorem scaleDown_drain_before_delete (s0 s : ClusterState)
    (hhist : s0.history = [])
    (hclean : ∀ h st, (h, st) ∈ s0.slurm → NodeState.DRAIN ∉ st)
    (hreach : Relation.ReflTransGen ScaleDownStep s0 s)
    (post pre : List ScaleDownEvent) (host : String) (st : Finset NodeState)
    (hsplit : s.history = post ++ ScaleDownEvent.podDeleted host st :: pre) :
    NodeState.DRAIN ∈ st ∧ NodeState.ALLOCATED ∉ st ∧ NodeState.MIXED ∉ st ∧
      ScaleDownEvent.drainRequested host ∈ pre := by
  have hinv := scaleDown_reachable_invariant s0 s hhist hclean hreach
  have h2 := eventsOK_split post s.history hinv.2 pre host st hsplit
  have h3 := (isDrained_iff st).mp h2.1
  exact ⟨h3.1, h3.2.1, h3.2.2, h2.2⟩

/-- Witness for C1: the concrete scale-down trace
`sdState0 → sdState1 → sdState2 → sdState3` (drain requested, jobs
finish, pod deleted) satisfies the theorem's hypotheses, and its one
deletion is drained-gated and preceded by the drain request. -/
theorem scaleDown_drain_before_delete_witness :
    sdState0.history = [] ∧
    sdState3.history = [] ++ ScaleDownEvent.podDeleted "node-1" {NodeState.DRAIN} ::
      [ScaleDownEvent.slurmChanged "node-1", ScaleDownEvent.drainRequested "node-1"] ∧
    (NodeState.DRAIN ∈ ({NodeState.DRAIN} : Finset NodeState) ∧
      NodeState.ALLOCATED ∉ ({NodeState.DRAIN} : Finset NodeState) ∧
      NodeState.MIXED ∉ ({NodeState.DRAIN} : Finset NodeState) ∧
      ScaleDownEvent.drainRequested "node-1" ∈
        [ScaleDownEvent.slurmChanged "node-1",
          ScaleDownEvent.drainRequested "node-1"]) := by
  have hclean : ∀ h st, (h, st) ∈ sdState0.slurm → NodeState.DRAIN ∉ st := by
    intro h st hmem
    simp only [sdState0, List.mem_singleton, Prod.mk.injEq] at hmem
    obtain ⟨-, rfl⟩ := hmem
    decide
  have h1 : ScaleDownStep sdState0 sdState1 :=
    ScaleDownStep.drain sdState0 "node-1" {NodeState.ALLOCATED} (by decide) (by decide)
  have h2 : ScaleDownStep sdState1 sdState2 :=
    ScaleDownStep.envChange sdState1 "node-1"
      (updateNodeState {NodeState.ALLOCATED} [NodeState.DRAIN]) {NodeState.DRAIN}
      (by decide) (by decide)
  have h3 : ScaleDownStep sdState2 sdState3 :=
    ScaleDownStep.deletePod sdState2 "node-1" {NodeState.DRAIN}
      (by decide) (by decide) (by decide)
  have hreach : Relation.ReflTransGen ScaleDownStep sdState0 sdState3 :=
    Relation.ReflTransGen.tail
      (Relation.ReflTransGen.tail
        (Relation.ReflTransGen.tail Relation.ReflTransGen.refl h1) h2) h3
  exact ⟨rfl, rfl,
    scaleDown_drain_before_delete sdState0 sdState3 rfl hclean hreach
      [] [ScaleDownEvent.slurmChanged "node-1", ScaleDownEvent.drainRequested "node-1"]
      "node-1" {NodeState.DRAIN} rfl⟩

end SlurmOperator
